import Mathlib

/-!
Shallow embedding of the `fizzwiz/vanilla` overlay core: the scored-connection
wrapper (`Vibe`), the agent (`Sprite`), the owner context (`Node`) and the
directory/aggregation service (`Gaia`), translated from the JavaScript sources
in `src/`.  JavaScript numbers are modelled by exact types: timestamps and
scores by `ℚ` (with `WithBot ℚ` when `-Infinity` is a reachable value),
geographic coordinates by `ℝ` (the haversine formula is transcendental), and a
raw query-string number — which may be `NaN` or `±Infinity` — by the tagged
type `JNum`.  JavaScript objects (`Record<string, T>`) are modelled by
association lists in property-insertion order.  External collaborators that are
not part of this repository (the `AsyncWhat` combinator, the ensemble's
round-robin `rotate`, the sorted collection's `select`) are modelled from the
contracts the specification states for them; each such definition is marked
`Modelled from the spec:`.
-/

/-- A JavaScript number that may be `NaN` or infinite, over a carrier `α`
(`ℝ` for coordinates, `ℚ` for counts): source values come from `Number(...)`
applied to query-string parameters. -/
inductive JNum (α : Type) where
  | num (x : α)
  | posInf
  | negInf
  | nan
deriving DecidableEq

/-- Mirrors JavaScript `Number.isFinite`: true exactly on ordinary numbers. -/
def JNum.isFinite {α : Type} : JNum α → Bool
  | .num _ => true
  | _ => false

/-- Truthiness of an optional JavaScript string (`undefined` and `""` are
falsy, any other string truthy). -/
def jsTruthyStr : Option String → Bool
  | none => false
  | some s => !s.isEmpty

/-- The last value an association list holds for a key: models the value a
plain object ends up with after later entries overwrite earlier ones. -/
def lookupLast {β : Type} (k : String) (l : List (String × β)) : Option β :=
  List.lookup k l.reverse

/-- Mirrors JavaScript `Object.fromEntries`: keys appear in first-occurrence
order, each carrying the value of its last occurrence. -/
def jsFromEntries {β : Type} : List (String × β) → List (String × β)
  | [] => []
  | (k, v) :: rest =>
      (k, (lookupLast k rest).getD v) ::
        jsFromEntries (rest.filter fun e => !(e.1 == k))
termination_by l => l.length
decreasing_by
  simp only [List.length_cons]
  exact Nat.lt_succ_of_le (List.length_filter_le _ _)

/-- Mirrors JavaScript `Object.assign(target, source)` on objects with unique
keys: existing keys keep their position and take the source's value, new keys
are appended in source order. -/
def jsAssign {β : Type} (target source : List (String × β)) :
    List (String × β) :=
  (target.map fun kv =>
    match source.lookup kv.1 with
    | some v => (kv.1, v)
    | none => kv) ++
    source.filter fun kv => (target.lookup kv.1).isNone

namespace Sprite

/-- From `Sprite.id` (src/src/main/core/Sprite.js): builds `"<user>:<name>"`. -/
def id (user name : String) : String :=
  user ++ ":" ++ name

/-- From `Sprite.parseId` (src/src/main/core/Sprite.js): `id.split(":")`
yields the user before the first separator and, when present, the component
between the first and second separator as the name. -/
def parseId (s : String) : String × Option String :=
  match s.splitOn ":" with
  | [] => ("", none)
  | [u] => (u, none)
  | u :: n :: _ => (u, some n)

end Sprite

/-- State of a `Vibe` (src/src/main/core/Vibe.js): a scored wrapper around one
WebSocket connection.  `value` is a JavaScript number that `ping` can set to
`-Infinity`, modelled by `WithBot ℚ` with `⊥` for `-Infinity`; `wsOpen` models
whether the underlying connection has been asked to close. -/
structure VibeS where
  value : WithBot ℚ
  lastActive : ℚ
  muted : Bool
  wsOpen : Bool
deriving DecidableEq

namespace Vibe

/-- From `Vibe.touch`: sets `lastActive` to the current time. -/
def touch (v : VibeS) (now : ℚ) : VibeS :=
  { v with lastActive := now }

/-- From `Vibe.isActive`: `lastActive + maxAllowedInactivity >= now`. -/
def isActive (v : VibeS) (maxAllowedInactivity now : ℚ) : Bool :=
  decide (now ≤ v.lastActive + maxAllowedInactivity)

/-- From `Vibe.mute`: sets `muted = true` and nothing else — in particular it
does not touch the underlying connection. -/
def mute (v : VibeS) : VibeS :=
  { v with muted := true }

/-- From `Vibe.eval`: stores the elapsed ping time, negated, as the value. -/
def eval (v : VibeS) (elapsed : ℚ) : VibeS :=
  { v with value := ((-elapsed : ℚ) : WithBot ℚ) }

/-- An outbound protocol message `{type, pingId, payload}` as `Vibe.pong`
serialises it; a field holds `none` where the source writes `undefined`. -/
structure OutMsg where
  type : String
  pingId : Option String
  payload : Option String
deriving DecidableEq

/-- From `Vibe.pong(pingId, payload)`: sends `{type:"pong", pingId, payload}`
immediately on the connection. -/
def pong (pingId payload : Option String) : OutMsg :=
  { type := "pong", pingId := pingId, payload := payload }

/-- An inbound message once `Vibe.json` has parsed it: the fields the
`message` cue and the ping/pong predicates read.  `payloadTruthy` models the
JavaScript truthiness of `json.payload`. -/
structure InMsg where
  type : Option String
  id : Option String
  pingId : Option String
  payloadTruthy : Bool
deriving DecidableEq

/-- From the `messageCue` handler registered in the `Vibe` constructor
(src/src/main/core/Vibe.js lines 27-35): on every message it updates
`lastActive`, and it answers `this.pong(undefined, json.pingId)` exactly when
`json.type === 'ping' && !json.payload && json.pingId`.  Returns the updated
state and the messages sent in response. -/
def messageCue (v : VibeS) (m : InMsg) (now : ℚ) : VibeS × List OutMsg :=
  let v1 := { v with lastActive := now }
  if m.type = some "ping" ∧ m.payloadTruthy = false ∧ jsTruthyStr m.pingId then
    (v1, [pong none m.pingId])
  else
    (v1, [])

/-- How one `ping(payload, timeout)` exchange can end, as seen from the wire:
the matching pong arrives after `elapsed` milliseconds, or the timeout fires,
or the matching predicate itself throws (malformed inbound JSON), or the
initial `ws.send` throws because the connection is closed. -/
inductive PingOutcome where
  | pongMatched (elapsed : ℚ)
  | timeout
  | predicateThrew
  | sendFailed
deriving DecidableEq

/-- Errors an `AsyncWhat` step of the ping exchange can fail with. -/
inductive PingErr where
  | transport
  | timeout
  | protocol
deriving DecidableEq

/-- Modelled from the spec: an `AsyncWhat` step (external `@fizzwiz`
combinator, not part of this repository) is a state transformer that may
fail. -/
def AWhat (σ : Type) : Type :=
  σ → Except PingErr σ

/-- Modelled from the spec: `a.sthen(b)` runs `b` after `a`, short-circuiting
on failure. -/
def AWhat.sthen {σ : Type} (a b : AWhat σ) : AWhat σ :=
  fun s => (a s).bind b

/-- Modelled from the spec: `a.else(h)` absorbs any failure of `a` by running
the recovery `h` and resolving normally. -/
def AWhat.jsElse {σ : Type} (a : AWhat σ) (h : σ → σ) : AWhat σ :=
  fun s =>
    match a s with
    | .ok t => .ok t
    | .error _ => .ok (h s)

/-- From `Vibe.ping`: the `sendRequest` step, `ws.send` of the ping message;
it throws a transport error when the wire reports the send failed. -/
def pingSend (o : PingOutcome) : AWhat VibeS :=
  fun v =>
    match o with
    | .sendFailed => .error .transport
    | _ => .ok v

/-- Modelled from the spec: `handleResponse.when(isResponse, ws, "message",
timeout)` waits for a message satisfying `isResponse` within the timeout and
then runs `handleResponse` (which is `Vibe.eval`, setting
`value := -elapsed`); it fails on timeout, and fails when the predicate
itself throws on malformed inbound data. -/
def pingAwait (o : PingOutcome) : AWhat VibeS :=
  fun v =>
    match o with
    | .pongMatched elapsed => .ok (eval v elapsed)
    | .timeout => .error .timeout
    | .predicateThrew => .error .protocol
    | .sendFailed => .error .transport

/-- From `Vibe.ping` (src/src/main/core/Vibe.js lines 83-101): the chain
`sendRequest.sthen(handleResponse.when(...)).else(() => value = -Infinity)`,
run against the wire outcome `o`.  `.ok` models a promise that resolves
without raising to the caller. -/
def ping (o : PingOutcome) : AWhat VibeS :=
  ((pingSend o).sthen (pingAwait o)).jsElse fun v => { v with value := ⊥ }

end Vibe

/-- State of a `Sprite` (src/src/main/core/Sprite.js): its id, the options
`{connectivity, beat}`, the named collection of Vibes in insertion order, and
the collection's round-robin pointer used by `send`. -/
structure SpriteS where
  id : String
  connectivity : ℕ
  beat : ℚ
  vibes : List (String × VibeS)
  rr : ℕ
deriving DecidableEq

namespace Sprite

/-- Descending order on named Vibes by `value`, as `ORDER.DESCENDING` sorts
them in `refreshVibes`. -/
def byValueDesc (a b : String × VibeS) : Prop :=
  b.2.value ≤ a.2.value

instance : DecidableRel byValueDesc :=
  fun a b => inferInstanceAs (Decidable (b.2.value ≤ a.2.value))

instance : IsTotal (String × VibeS) byValueDesc :=
  ⟨fun a b => le_total b.2.value a.2.value⟩

instance : IsTrans (String × VibeS) byValueDesc :=
  ⟨fun _ _ _ h1 h2 => le_trans h2 h1⟩

/-- From `Sprite.refreshVibes` (src/src/main/core/Sprite.js lines 100-117):
closes the underlying connection of every Vibe that is not
`isActive(beat, now)` (the Vibe itself stays in the collection until the
asynchronous close event removes it), then, if the Vibe count exceeds
`connectivity`, sorts the Vibes by value descending and mutes every Vibe
beyond the top `connectivity`.

Modelled from the spec: `new SortedArray(ORDER.DESCENDING).letAll(vibes)` and
`sorted.select(connectivity)` come from `@fizzwiz/sorted`, which is not part
of this repository; per the spec they sort the Vibes by `value` descending,
and `select(k)` yields the Vibes beyond the top `k` (the source binds the
result to `discarded` and mutes each of its members). -/
def refreshVibes (s : SpriteS) (now : ℚ) : SpriteS :=
  let closed := s.vibes.map fun e =>
    if Vibe.isActive e.2 s.beat now then e else (e.1, { e.2 with wsOpen := false })
  if s.connectivity < closed.length then
    let sorted := List.insertionSort byValueDesc closed
    let discarded := sorted.drop s.connectivity
    let names := discarded.map Prod.fst
    { s with vibes := closed.map fun e =>
        if names.contains e.1 then (e.1, Vibe.mute e.2) else e }
  else
    { s with vibes := closed }

/-- What `Sprite.send` can come to: forwarding the message on the selected
Vibe's connection and returning `true`, throwing the fresh
`Error("Selected Vibe is muted")` the source constructs when the selected
Vibe is muted, throwing the caller-supplied `onRejectError` object when the
selected Vibe fails the predicate, or the `TypeError` of reading `.muted` off
`undefined` when the collection is empty.  The fresh muted-error is a newly
allocated object and therefore never the same value as the supplied one. -/
inductive SendRes where
  | sent (peer : String)
  | threwMutedFixed
  | threwSupplied
  | threwEmpty
deriving DecidableEq

/-- From `Sprite.send` (src/src/main/core/Sprite.js lines 170-176).

Modelled from the spec: `this.vibes.rotate()` comes from `@fizzwiz/ensemble`,
which is not part of this repository; per the spec it advances the
collection's round-robin pointer by one position and yields the Vibe at the
new position.  The source then throws `new Error("Selected Vibe is muted")`
if that Vibe is muted, throws the supplied error if it fails the predicate,
and otherwise sends the message on its connection and returns `true`. -/
def send (s : SpriteS) (pred : VibeS → Bool) : SpriteS × SendRes :=
  match s.vibes.get? ((s.rr + 1) % s.vibes.length) with
  | none => ({ s with rr := (s.rr + 1) % s.vibes.length }, .threwEmpty)
  | some e =>
      if e.2.muted then
        ({ s with rr := (s.rr + 1) % s.vibes.length }, .threwMutedFixed)
      else if pred e.2 then
        ({ s with rr := (s.rr + 1) % s.vibes.length }, .sent e.1)
      else ({ s with rr := (s.rr + 1) % s.vibes.length }, .threwSupplied)

end Sprite

/-- One refresh configuration of a `Node`: the `{url, beat}` pair for the
token endpoint or the identity/config endpoint.  Fields are optional because
the options object may omit them. -/
structure RefreshCfg where
  url : Option String
  beat : Option ℚ
deriving DecidableEq

/-- Options of a `Node` (src/src/main/core/Node.js): the optional token and
self refresh settings. -/
structure NodeOpts where
  token : Option RefreshCfg
  self : Option RefreshCfg
deriving DecidableEq

/-- Truthiness of an optional JavaScript number (`undefined`, `0` and `NaN`
are falsy); the `beat` fields are tested this way. -/
def jsTruthyNum : Option ℚ → Bool
  | none => false
  | some q => !(q == 0)

/-- Whether `opts.<cfg>?.url && opts.<cfg>?.beat` holds: both the url and the
beat are present and truthy. -/
def RefreshCfg.pairPresent : Option RefreshCfg → Bool
  | none => false
  | some c => jsTruthyStr c.url && jsTruthyNum c.beat

/-- State a `Node` constructor leaves behind: which periodic refresh tasks it
scheduled. -/
structure NodeS where
  user : String
  opts : NodeOpts
  tokenScheduled : Bool
  refreshScheduled : Bool
deriving DecidableEq

/-- A construction-time configuration error; the spec's `ConfigError`. -/
inductive ConfigError where
  | missingRefreshPair
deriving DecidableEq

namespace Node

/-- From the `Node` constructor (src/src/main/core/Node.js lines 66-89): it
stores `user` and `opts`, creates the sprites ensemble, and schedules the
token refresher only when `opts.token?.url && opts.token?.beat` and the
config refresher only when `opts.self?.url && opts.self?.beat`.  No branch
throws: the result is always `.ok`. -/
def construct (user : String) (opts : NodeOpts) : Except ConfigError NodeS :=
  .ok { user := user
        opts := opts
        tokenScheduled := RefreshCfg.pairPresent opts.token
        refreshScheduled := RefreshCfg.pairPresent opts.self }

end Node

/-- A sprite's payload as `Gaia.img` reads it: the optional geographic
coordinates and the optional reachable address.  A coordinate is `none` when
the posted payload lacks a numeric value for it (property access then yields
`undefined`, and arithmetic on it yields `NaN`). -/
structure Payload where
  long : Option ℝ
  lat : Option ℝ
  url : Option String

/-- The Gaia image: the three maps `{users, sprites, vibes}` — both the
aggregator's state and the snapshot it returns have this shape.  `υ` is the
type of user payloads, which Gaia never inspects. -/
structure GaiaImg (υ : Type) where
  users : List (String × υ)
  sprites : List (String × Payload)
  vibes : List (String × List String)

namespace Gaia

/-- JavaScript `Math.atan2 y x` over the reals. -/
noncomputable def atan2 (y x : ℝ) : ℝ :=
  if 0 < x then Real.arctan (y / x)
  else if x < 0 ∧ 0 ≤ y then Real.arctan (y / x) + Real.pi
  else if x < 0 ∧ y < 0 then Real.arctan (y / x) - Real.pi
  else if x = 0 ∧ 0 < y then Real.pi / 2
  else if x = 0 ∧ y < 0 then -(Real.pi / 2)
  else 0

/-- From `Gaia.dist` (src/unnamed/part_003 lines 282-297): haversine
great-circle distance in meters between `[longitude, latitude]` points, with
`R = 6371e3` the Earth's mean radius. -/
noncomputable def dist (a b : ℝ × ℝ) : ℝ :=
  let R : ℝ := 6371000
  let phi1 := a.2 * Real.pi / 180
  let phi2 := b.2 * Real.pi / 180
  let dPhi := (b.2 - a.2) * Real.pi / 180
  let dLam := (b.1 - a.1) * Real.pi / 180
  let h := Real.sin (dPhi / 2) ^ 2 +
    Real.cos phi1 * Real.cos phi2 * Real.sin (dLam / 2) ^ 2
  let c := 2 * atan2 (Real.sqrt h) (Real.sqrt (1 - h))
  R * c

/-- The distance `Gaia.dist` applied to a candidate sprite's possibly-missing
coordinates:
per the source's own doc comment it returns the distance in meters, "or NaN
if some coordinate is undefined"; `none` models that NaN. -/
noncomputable def distJ (center : ℝ × ℝ) (p : Option ℝ × Option ℝ) :
    Option ℝ :=
  match p with
  | (some lo, some la) => some (dist center (lo, la))
  | _ => none

/-- The JavaScript comparison `d < r` where `d` may be NaN (`none`): a NaN
comparison is false. -/
def jsLt (d : Option ℝ) (r : ℝ) : Prop :=
  match d with
  | some x => x < r
  | none => False

noncomputable instance jsLt.instDecidable (d : Option ℝ) (r : ℝ) :
    Decidable (jsLt d r) :=
  match d with
  | some x => Classical.propDecidable ((x : ℝ) < r)
  | none => isFalse fun h => h

/-- From `Gaia.img` (src/unnamed/part_003 lines 186-197), the candidate
collection step: when `long`, `lat` and `radius` are all finite, keep exactly
the sprites with `Gaia.dist([long, lat], [payload.long, payload.lat]) <
radius`; otherwise every sprite is a candidate. -/
noncomputable def geoEntries (sprites : List (String × Payload)) :
    JNum ℝ → JNum ℝ → JNum ℝ → List (String × Payload)
  | .num lo, .num la, .num r =>
      sprites.filter fun e => decide (jsLt (distJ (lo, la) (e.2.long, e.2.lat)) r)
  | _, _, _ => sprites

/-- From `Gaia.img` line 200: if `requireUrl`, keep the sprites whose payload
has a truthy `url`. -/
def urlEntries (requireUrl : Bool) (entries : List (String × Payload)) :
    List (String × Payload) :=
  if requireUrl then entries.filter fun e => jsTruthyStr e.2.url else entries

/-- From `Gaia.img` lines 203-211: when a non-empty `targets` array is given,
keep the sprites having at least one outgoing vibe whose target id is listed
or whose target's user is listed. -/
def targetEntries (vibes : List (String × List String))
    (targets : Option (List String)) (entries : List (String × Payload)) :
    List (String × Payload) :=
  match targets with
  | some ts =>
      if ts.isEmpty then entries
      else entries.filter fun e =>
        ((vibes.lookup e.1).getD []).any fun t =>
          ts.contains t || ts.contains (Sprite.parseId t).1
  | none => entries

/-- The JavaScript comparison `entries.length <= n` for a possibly-infinite or
NaN `n`. -/
def jsLeNat (len : ℕ) : JNum ℚ → Bool
  | .num q => decide ((len : ℚ) ≤ q)
  | .posInf => true
  | .negInf => false
  | .nan => false

/-- How many iterations `for (let i = 0; i < n; i++)` runs for a finite
JavaScript number `n` (`⌈n⌉` when positive, none otherwise); `posInf` cannot
reach the loop because `entries.length <= Infinity` always holds. -/
def drawCount : JNum ℚ → ℕ
  | .num q => (Int.ceil q).toNat
  | _ => 0

/-- From `Gaia.sample` (src/unnamed/part_003 lines 257-269): when
`entries.length <= n`, yield the entries themselves; otherwise yield `n`
draws `entries[Math.floor(Math.random() * entries.length)]`.  `rand i` models
the `i`-th random index; `Math.floor(Math.random() * length)` always lies in
range when the length is positive, so the `get?` below always succeeds on the
source's inputs. -/
def sample {α : Type} (entries : List α) (n : JNum ℚ) (rand : ℕ → ℕ) :
    List α :=
  if jsLeNat entries.length n then entries
  else (List.range (drawCount n)).filterMap fun i => entries.get? (rand i)

/-- From `Gaia.img` (src/unnamed/part_003 lines 186-245): filters the sprites
geographically, by reachable address and by targets, samples them, keeps the
vibes whose source sprite was selected (targets are untouched), and keeps the
known users owning a selected sprite or a target of a kept vibe. -/
noncomputable def img {υ : Type} (g : GaiaImg υ) (long lat radius : JNum ℝ)
    (sampleN : JNum ℚ) (requireUrl : Bool) (targets : Option (List String))
    (rand : ℕ → ℕ) : GaiaImg υ :=
  let entries := targetEntries g.vibes targets
    (urlEntries requireUrl (geoEntries g.sprites long lat radius))
  let sprites := jsFromEntries (sample entries sampleN rand)
  let spriteIds := sprites.map Prod.fst
  let vibes := g.vibes.filter fun e => spriteIds.contains e.1
  let userIds := ((sprites.map fun e => (Sprite.parseId e.1).1) ++
    ((vibes.map Prod.snd).flatten.map fun t => (Sprite.parseId t).1)).dedup
  let users := userIds.filterMap fun u => (g.users.lookup u).map fun p => (u, p)
  { users := users, sprites := sprites, vibes := vibes }

end Gaia

namespace Gaia

/-- A posted request body `{users?, sprites?, vibes?}`: a field is `none`
when it is absent or not an object, in which case `Gaia.update` merges
nothing for it. -/
structure Body (υ : Type) where
  users : Option (List (String × υ))
  sprites : Option (List (String × Payload))
  vibes : Option (List (String × List String))

/-- The JavaScript value `Gaia.update` receives as its first argument, as its
`!img || typeof img !== "object"` guard classifies it: a real image object, a
function (such as the `Gaia.prototype.img` method), or a nullish value. -/
inductive UpdateArg (υ : Type) where
  | obj (img : GaiaImg υ)
  | jsFunction
  | nullish

/-- The `TypeError` message `Gaia.update` throws for a non-object first
argument. -/
def updateErrMsg : String :=
  "Gaia.update() requires a valid image object as first argument"

/-- From `Gaia.update` (src/unnamed/part_003 lines 117-138): throws a
`TypeError` unless the first argument is a (truthy) object — a function or a
nullish value fails the guard — and otherwise shallow-merges each posted map
into the image in place. -/
def update {υ : Type} (arg : UpdateArg υ) (body : Body υ) :
    Except String (GaiaImg υ) :=
  match arg with
  | .jsFunction => .error updateErrMsg
  | .nullish => .error updateErrMsg
  | .obj img =>
      .ok { users := jsAssign img.users (body.users.getD [])
            sprites := jsAssign img.sprites (body.sprites.getD [])
            vibes := jsAssign img.vibes (body.vibes.getD []) }

/-- The query parameters of an image request, after `Number(...)` parsing and
target splitting: `long`/`lat` default to NaN when absent, `radius` and
`sample` to `Infinity` (the source applies `?? Infinity` before `Number`). -/
structure Query where
  long : JNum ℝ
  lat : JNum ℝ
  radius : JNum ℝ
  sample : JNum ℚ
  requireUrl : Bool
  targets : Option (List String)

/-- What an image-request handler writes back: the JSON error body or the
snapshot. -/
inductive ResBody (υ : Type) where
  | error (msg : String)
  | img (snapshot : GaiaImg υ)

/-- An HTTP response: status code and JSON body. -/
structure HttpRes (υ : Type) where
  status : ℕ
  body : ResBody υ

/-- From `Gaia.resolveImgRequest` (src/unnamed/part_003 lines 74-101): the
handler a well-formed request (POST, JSON-accepting, parsed body and query)
reaches.  The source calls `Gaia.update(this.img, req.body ?? {})`, and
`this.img` is the `Gaia.prototype.img` METHOD — a function — so the argument
is `UpdateArg.jsFunction`; on the thrown error the catch block responds 500
with the error message, leaving the aggregator state untouched.  Were
`update` to return, the source would parse the query and respond 200 with
`this.img([long, lat], radius, sample, requireUrl, targets)`. -/
noncomputable def resolveImgRequest {υ : Type} (g : GaiaImg υ) (body : Body υ)
    (q : Query) (rand : ℕ → ℕ) : GaiaImg υ × HttpRes υ :=
  match update (UpdateArg.jsFunction (υ := υ)) body with
  | .error msg => (g, { status := 500, body := .error msg })
  | .ok _ =>
      (g, { status := 200,
            body := .img (img g q.long q.lat q.radius q.sample q.requireUrl
              q.targets rand) })

end Gaia

theorem lookup_mem {β : Type} {k : String} {v : β} :
    ∀ {l : List (String × β)}, List.lookup k l = some v → (k, v) ∈ l := by
  intro l h
  induction l with
  | nil => simp at h
  | cons e t ih =>
      cases e with
      | mk ek ev =>
          cases hk : (k == ek) with
          | true =>
              simp only [List.lookup_cons, hk, if_true] at h
              cases h
              exact List.mem_cons.mpr (Or.inl (by simp [beq_iff_eq.mp hk]))
          | false =>
              simp only [List.lookup_cons, hk, Bool.false_eq_true,
                if_false] at h
              exact List.mem_cons.mpr (Or.inr (ih h))

theorem mem_of_mem_jsFromEntries {β : Type} :
    ∀ (l : List (String × β)) (e : String × β), e ∈ jsFromEntries l → e ∈ l := by
  intro l
  induction l using jsFromEntries.induct with
  | case1 =>
      intro e h
      simp [jsFromEntries] at h
  | case2 k v rest ih =>
      intro e h
      rw [jsFromEntries] at h
      rcases List.mem_cons.mp h with he | ht
      · cases hlk : lookupLast k rest with
        | none =>
            rw [hlk] at he
            exact List.mem_cons.mpr (Or.inl (by simpa using he))
        | some w =>
            rw [hlk] at he
            refine List.mem_cons.mpr (Or.inr ?_)
            have hw : (k, w) ∈ rest.reverse := lookup_mem hlk
            have : (k, w) ∈ rest := List.mem_reverse.mp hw
            simpa [he]
      · exact List.mem_cons.mpr (Or.inr (List.mem_of_mem_filter (ih e ht)))

theorem mem_of_mem_sample {α : Type} (entries : List α) (n : JNum ℚ)
    (rand : ℕ → ℕ) : ∀ a ∈ Gaia.sample entries n rand, a ∈ entries := by
  intro a ha
  unfold Gaia.sample at ha
  by_cases hle : Gaia.jsLeNat entries.length n
  · rwa [if_pos hle] at ha
  · rw [if_neg hle] at ha
    obtain ⟨i, _, hi⟩ := List.mem_filterMap.mp ha
    exact List.get?_mem hi

theorem filterMap_get?_of_isSome {α β : Type} (f : α → Option β) :
    ∀ (l : List α), (∀ a ∈ l, (f a).isSome) →
      (l.filterMap f).length = l.length
      ∧ ∀ i, (l.filterMap f).get? i = (l.get? i).bind f := by
  intro l
  induction l with
  | nil => simp
  | cons a t ih =>
      intro h
      obtain ⟨b, hb⟩ := Option.isSome_iff_exists.mp (h a (by simp))
      have ht := ih fun x hx => h x (by simp [hx])
      refine ⟨by simp [List.filterMap_cons, hb, ht.1], ?_⟩
      intro i
      cases i with
      | zero => simp [List.filterMap_cons, hb]
      | succ j => simpa [List.filterMap_cons, hb] using ht.2 j

/-- C3: `ping(payload, timeout)` never raises to its caller: a matching pong
within the timeout resolves with `value = -elapsed`; a timeout, a throwing
matching predicate (malformed inbound JSON), or even a failing send, resolve
normally with `value = -Infinity`. -/
theorem vibe_ping_resolves (v : VibeS) (o : Vibe.PingOutcome) :
    (∃ w, Vibe.ping o v = .ok w)
    ∧ (∀ e, o = .pongMatched e →
        Vibe.ping o v = .ok { v with value := ((-e : ℚ) : WithBot ℚ) })
    ∧ ((o = .timeout ∨ o = .predicateThrew ∨ o = .sendFailed) →
        Vibe.ping o v = .ok { v with value := ⊥ }) := by
  refine ⟨?_, ?_, ?_⟩ <;> cases o <;>
    simp [Vibe.ping, Vibe.pingSend, Vibe.pingAwait, Vibe.AWhat.sthen,
      Vibe.AWhat.jsElse, Vibe.eval, Except.bind]

/-- C4: an inbound `{type:"ping", id}` message with no payload is never
answered — the cue tests `json.pingId`, which an inbound ping does not carry —
and even a message carrying a `pingId` is answered with
`pong(undefined, pingId)`, i.e. `{type:"pong", pingId: undefined,
payload: <the id>}`, the two arguments swapped. -/
theorem vibe_messageCue_ping_unanswered (v : VibeS) (now : ℚ) (pid : String) :
    (Vibe.messageCue v
        { type := some "ping", id := some pid, pingId := none,
          payloadTruthy := false } now
      = ({ v with lastActive := now }, []))
    ∧ ((Vibe.messageCue v
        { type := some "ping", id := none, pingId := some pid,
          payloadTruthy := false } now).2
      = if pid.isEmpty then [] else [Vibe.pong none (some pid)]) := by
  constructor
  · simp [Vibe.messageCue, jsTruthyStr]
  · by_cases hp : pid.isEmpty <;> simp [Vibe.messageCue, jsTruthyStr, hp]

/-- C9 (amended): the `Node` constructor never fails; a missing or falsy
token or self refresh `{url, beat}` pair merely leaves the corresponding
periodic task unscheduled. -/
theorem node_construct_never_fails (user : String) (opts : NodeOpts) :
    (∀ e, Node.construct user opts ≠ Except.error e)
    ∧ ∃ s, Node.construct user opts = .ok s
        ∧ s.tokenScheduled = RefreshCfg.pairPresent opts.token
        ∧ s.refreshScheduled = RefreshCfg.pairPresent opts.self := by
  refine ⟨fun e h => by simp [Node.construct] at h, ?_⟩
  exact ⟨_, rfl, rfl, rfl⟩

/-- C9 counterexample: constructing a `Node` with neither refresh pair
succeeds — no `ConfigError` is raised — and schedules nothing, contradicting
the claim that construction fails fast whenever a pair is missing. -/
theorem node_construct_counterexample :
    Node.construct "alice" { token := none, self := none }
      = .ok { user := "alice", opts := { token := none, self := none },
              tokenScheduled := false, refreshScheduled := false } := rfl

/-- C8 (amended): `send` advances the round-robin pointer by one position and
selects the Vibe there; a muted selection throws the fresh
`Error("Selected Vibe is muted")` (not the supplied `onRejectError`), a
selection failing the predicate throws the supplied `onRejectError`, and
otherwise the message goes out on the selected Vibe's connection and `send`
reports success; the collection itself is not changed. -/
theorem sprite_send_spec (s : SpriteS) (pred : VibeS → Bool) :
    ((Sprite.send s pred).1.rr = (s.rr + 1) % s.vibes.length)
    ∧ ((Sprite.send s pred).1.vibes = s.vibes)
    ∧ (∀ e, s.vibes.get? ((s.rr + 1) % s.vibes.length) = some e →
        ((e.2.muted = true →
            (Sprite.send s pred).2 = Sprite.SendRes.threwMutedFixed)
         ∧ (e.2.muted = false → pred e.2 = true →
            (Sprite.send s pred).2 = Sprite.SendRes.sent e.1)
         ∧ (e.2.muted = false → pred e.2 = false →
            (Sprite.send s pred).2 = Sprite.SendRes.threwSupplied))) := by
  unfold Sprite.send
  cases hg : s.vibes.get? ((s.rr + 1) % s.vibes.length) with
  | none =>
      refine ⟨rfl, rfl, ?_⟩
      intro e he
      cases he
  | some e =>
      refine ⟨?_, ?_, ?_⟩
      · by_cases hm : e.2.muted <;> by_cases hp : pred e.2 <;> simp [hm, hp]
      · by_cases hm : e.2.muted <;> by_cases hp : pred e.2 <;> simp [hm, hp]
      · intro e' he'
        cases he'
        exact ⟨fun hm => by simp [hm], fun hm hp => by simp [hm, hp],
          fun hm hp => by simp [hm, hp]⟩

/-- C8 counterexample: with the selected Vibe muted, `send` throws the fresh
muted error, which is not the supplied `onRejectError` — the claim that the
supplied error is thrown in the muted case fails. -/
theorem sprite_send_muted_counterexample :
    (Sprite.send
      { id := "alice:main", connectivity := 20, beat := 20000,
        vibes := [("bob:main",
          { value := 0, lastActive := 0, muted := true, wsOpen := true })],
        rr := 0 }
      fun _ => true).2 = Sprite.SendRes.threwMutedFixed
    ∧ Sprite.SendRes.threwMutedFixed ≠ Sprite.SendRes.threwSupplied := by
  exact ⟨rfl, by decide⟩

/-- C1: every request that reaches `resolveImgRequest` — i.e. every
well-formed POST with a JSON-accepting client, parsed body and query — is
answered 500 with the `TypeError` message of `Gaia.update`, because the
source passes the method `this.img` (a function) as the image object; the
aggregator state is returned unchanged, so the posted body is never merged
and no 200 snapshot is produced. -/
theorem gaia_resolveImgRequest_500 {υ : Type} (g : GaiaImg υ)
    (body : Gaia.Body υ) (q : Gaia.Query) (rand : ℕ → ℕ) :
    Gaia.resolveImgRequest g body q rand
      = (g, { status := 500, body := .error Gaia.updateErrMsg }) := rfl

/-- C6: `Gaia.sample(entries, n)` returns the entries themselves (unchanged,
hence without duplicates when the input — `Object.entries` of a map — has
none) whenever `entries.length <= n`; otherwise it yields exactly `n` draws,
the `i`-th being `entries[rand i]` for the `i`-th uniform random index
`rand i = Math.floor(Math.random() * entries.length)`, so the same entry may
be drawn twice (sampling with replacement). -/
theorem gaia_sample_spec {α : Type} (entries : List α) (n : JNum ℚ) (k : ℕ)
    (rand : ℕ → ℕ) :
    (Gaia.jsLeNat entries.length n = true →
      Gaia.sample entries n rand = entries)
    ∧ (k < entries.length →
        (∀ i, rand i < entries.length) →
          (Gaia.sample entries (JNum.num (k : ℚ)) rand).length = k
          ∧ ∀ i, i < k →
              (Gaia.sample entries (JNum.num (k : ℚ)) rand).get? i
                = entries.get? (rand i)) := by
  constructor
  · intro hle
    unfold Gaia.sample
    rw [if_pos hle]
  · intro hk hr
    have hlt : ¬ ((entries.length : ℚ) ≤ (k : ℚ)) := by
      exact_mod_cast not_le.mpr hk
    have hle : Gaia.jsLeNat entries.length (JNum.num (k : ℚ)) = false := by
      simp [Gaia.jsLeNat, hlt]
    have hdc : Gaia.drawCount (JNum.num (k : ℚ)) = k := by
      simp [Gaia.drawCount]
    have hsample : Gaia.sample entries (JNum.num (k : ℚ)) rand
        = (List.range k).filterMap fun i => entries.get? (rand i) := by
      unfold Gaia.sample
      rw [if_neg (by simp [hle]), hdc]
    have hsome : ∀ i ∈ List.range k, (entries.get? (rand i)).isSome := by
      intro i _
      rw [List.get?_eq_getElem?, List.getElem?_eq_getElem (hr i)]
      rfl
    have hfm := filterMap_get?_of_isSome (fun i => entries.get? (rand i))
      (List.range k) hsome
    refine ⟨by rw [hsample, hfm.1, List.length_range], ?_⟩
    intro i hi
    rw [hsample, hfm.2 i, List.get?_eq_getElem?, List.getElem?_range hi]
    rfl

theorem targetEntries_subset (vibes : List (String × List String))
    (targets : Option (List String)) (entries : List (String × Payload)) :
    ∀ e ∈ Gaia.targetEntries vibes targets entries, e ∈ entries := by
  intro e he
  cases targets with
  | none => simpa [Gaia.targetEntries] using he
  | some ts =>
      by_cases hts : ts.isEmpty
      · simpa [Gaia.targetEntries, hts] using he
      · simp only [Gaia.targetEntries, hts, Bool.false_eq_true,
          if_false] at he
        exact List.mem_of_mem_filter he

theorem urlEntries_subset (requireUrl : Bool)
    (entries : List (String × Payload)) :
    ∀ e ∈ Gaia.urlEntries requireUrl entries, e ∈ entries := by
  intro e he
  cases requireUrl with
  | false => simpa [Gaia.urlEntries] using he
  | true =>
      simp only [Gaia.urlEntries, if_true] at he
      exact List.mem_of_mem_filter he

theorem mem_geoEntries_num (sprites : List (String × Payload)) (lo la r : ℝ)
    (e : String × Payload) :
    e ∈ Gaia.geoEntries sprites (JNum.num lo) (JNum.num la) (JNum.num r)
      ↔ e ∈ sprites ∧
        Gaia.jsLt (Gaia.distJ (lo, la) (e.2.long, e.2.lat)) r := by
  unfold Gaia.geoEntries
  rw [List.mem_filter, decide_eq_true_eq]

/-- C5: `Gaia.img` applies the geographic filter exactly when the two center
coordinates and the radius are all finite; in that case a sprite is a
candidate exactly when the haversine distance `Gaia.dist` from the center to
its coordinates is strictly less than the radius (so a NaN distance, and a
sprite at exactly the radius, are excluded); any non-finite center
coordinate or radius leaves every sprite a candidate instead of erroring.
With no sampling (`sample = Infinity`), no url requirement and no targets,
the snapshot's sprites are exactly the geo-filtered candidates. -/
theorem gaia_geoEntries_spec (sprites : List (String × Payload))
    (long lat radius : JNum ℝ) :
    ((long.isFinite && lat.isFinite && radius.isFinite) = true
      ↔ ∃ lo la r, long = JNum.num lo ∧ lat = JNum.num la ∧
          radius = JNum.num r)
    ∧ ((long.isFinite && lat.isFinite && radius.isFinite) = false →
        Gaia.geoEntries sprites long lat radius = sprites)
    ∧ (∀ (lo la r : ℝ) (e : String × Payload),
        e ∈ Gaia.geoEntries sprites (JNum.num lo) (JNum.num la) (JNum.num r)
          ↔ e ∈ sprites ∧
            Gaia.jsLt (Gaia.distJ (lo, la) (e.2.long, e.2.lat)) r)
    ∧ (∀ (υ : Type) (g : GaiaImg υ) (rand : ℕ → ℕ),
        (Gaia.img g long lat radius JNum.posInf false none rand).sprites
          = jsFromEntries (Gaia.geoEntries g.sprites long lat radius)) := by
  refine ⟨?_, ?_, ?_, ?_⟩
  · cases long <;> cases lat <;> cases radius <;> simp [JNum.isFinite]
  · intro h
    cases long <;> cases lat <;> cases radius <;>
      simp_all [JNum.isFinite, Gaia.geoEntries]
  · intro lo la r e
    exact mem_geoEntries_num sprites lo la r e
  · intro υ g rand
    simp only [Gaia.img, Gaia.targetEntries, Gaia.urlEntries,
      Bool.false_eq_true, if_false, Gaia.sample, Gaia.jsLeNat, if_true]

/-- C10: when the geographic filter is active (finite center and radius),
a sprite entry whose payload lacks a numeric `long` or `lat` never appears
in the snapshot: `Gaia.dist` evaluates to NaN on the missing coordinate and
the strict comparison `NaN < radius` is false, so the entry is dropped by
the candidate filter and nothing downstream can reintroduce it. -/
theorem gaia_img_missing_coords_excluded {υ : Type} (g : GaiaImg υ)
    (lo la r : ℝ) (sampleN : JNum ℚ) (requireUrl : Bool)
    (targets : Option (List String)) (rand : ℕ → ℕ) (idp : String × Payload)
    (hmiss : idp.2.long = none ∨ idp.2.lat = none) :
    idp ∉ (Gaia.img g (JNum.num lo) (JNum.num la) (JNum.num r) sampleN
      requireUrl targets rand).sprites := by
  intro hmem
  simp only [Gaia.img] at hmem
  have h1 := mem_of_mem_jsFromEntries _ _ hmem
  have h2 := mem_of_mem_sample _ _ _ _ h1
  have h3 := targetEntries_subset _ _ _ _ h2
  have h4 := urlEntries_subset _ _ _ h3
  have h5 := (mem_geoEntries_num g.sprites lo la r idp).mp h4
  have hd : Gaia.distJ (lo, la) (idp.2.long, idp.2.lat) = none := by
    rcases hmiss with h | h
    · cases hl : idp.2.lat <;> simp [Gaia.distJ, h, hl]
    · cases hl : idp.2.long <;> simp [Gaia.distJ, h, hl]
  rw [hd] at h5
  exact h5.2

/-- Witness for C10 at a concrete aggregator: a sprite with no coordinates is
excluded from the snapshot when a finite center and radius are given. -/
theorem gaia_img_missing_coords_excluded_witness :
    ("a:x", ({ long := none, lat := none, url := none } : Payload)) ∉
      (Gaia.img (υ := Unit)
        { users := [],
          sprites := [("a:x", { long := none, lat := none, url := none })],
          vibes := [] }
        (JNum.num 0) (JNum.num 0) (JNum.num 1000) JNum.posInf false none
        fun _ => 0).sprites :=
  gaia_img_missing_coords_excluded _ 0 0 1000 JNum.posInf false none
    (fun _ => 0) ("a:x", { long := none, lat := none, url := none })
    (Or.inl rfl)

/-- C7: in every snapshot `Gaia.img` returns, each adjacency source key of
`vibes` is a key of the returned `sprites`; the adjacency lists themselves
pass through from the aggregator state unfiltered (targets are untouched);
and `users` holds exactly the known users owning a returned sprite or owning
a target of a returned adjacency entry, with unknown owners dropped. -/
theorem gaia_img_snapshot_invariants {υ : Type} (g : GaiaImg υ)
    (long lat radius : JNum ℝ) (sampleN : JNum ℚ) (requireUrl : Bool)
    (targets : Option (List String)) (rand : ℕ → ℕ) :
    ((Gaia.img g long lat radius sampleN requireUrl targets rand).vibes.map
        Prod.fst
      ⊆ (Gaia.img g long lat radius sampleN requireUrl targets rand).sprites.map
        Prod.fst)
    ∧ (∀ sid ts,
        (sid, ts) ∈ (Gaia.img g long lat radius sampleN requireUrl targets
            rand).vibes
          ↔ sid ∈ (Gaia.img g long lat radius sampleN requireUrl targets
              rand).sprites.map Prod.fst
            ∧ (sid, ts) ∈ g.vibes)
    ∧ (∀ u p,
        (u, p) ∈ (Gaia.img g long lat radius sampleN requireUrl targets
            rand).users
          ↔ List.lookup u g.users = some p
            ∧ ((∃ sid ∈ (Gaia.img g long lat radius sampleN requireUrl targets
                  rand).sprites.map Prod.fst, (Sprite.parseId sid).1 = u)
               ∨ ∃ src ts,
                   (src, ts) ∈ (Gaia.img g long lat radius sampleN requireUrl
                     targets rand).vibes
                   ∧ ∃ t ∈ ts, (Sprite.parseId t).1 = u)) := by
  refine ⟨?_, ?_, ?_⟩
  · intro a ha
    simp only [Gaia.img, List.mem_map, List.mem_filter,
      List.contains_eq_any_beq, List.any_eq_true, beq_iff_eq] at ha ⊢
    aesop
  · intro sid ts
    simp only [Gaia.img, List.mem_filter, List.contains_eq_any_beq,
      List.any_eq_true, beq_iff_eq, List.mem_map]
    constructor
    · rintro ⟨hA, x, ⟨a, ha, h1⟩, rfl⟩
      exact ⟨⟨a, ha, h1⟩, hA⟩
    · rintro ⟨⟨a, ha, h1⟩, hA⟩
      exact ⟨hA, sid, ⟨a, ha, h1⟩, rfl⟩
  · intro u p
    simp only [Gaia.img, List.mem_filterMap, Option.map_eq_some',
      List.mem_dedup, List.mem_append, List.mem_map, List.mem_flatten]
    constructor
    · rintro ⟨a, hPQ, a1, hlk, heq⟩
      injection heq with h1 h2
      subst h1
      subst h2
      refine ⟨hlk, ?_⟩
      rcases hPQ with ⟨b, hb, hpb⟩ | ⟨t, ⟨l, ⟨e, he, hel⟩, htl⟩, hpt⟩
      · exact Or.inl ⟨b.1, ⟨b, hb, rfl⟩, hpb⟩
      · exact Or.inr ⟨e.1, e.2, he, t, (by rw [hel]; exact htl), hpt⟩
    · rintro ⟨hlk, hPQ⟩
      refine ⟨u, ?_, p, hlk, rfl⟩
      rcases hPQ with ⟨sid, ⟨a, ha, hasid⟩, hp⟩ | ⟨src, ts, hmem, t, ht, hpt⟩
      · exact Or.inl ⟨a, ha, by rw [hasid]; exact hp⟩
      · exact Or.inr ⟨t, ⟨ts, ⟨(src, ts), hmem, rfl⟩, ht⟩, hpt⟩

theorem nodup_keys_inj {β : Type} {l : List (String × β)}
    (h : (l.map Prod.fst).Nodup) {d e : String × β} (hd : d ∈ l) (he : e ∈ l)
    (heq : d.1 = e.1) : d = e := by
  induction l with
  | nil => cases hd
  | cons a t ih =>
      rw [List.map_cons, List.nodup_cons] at h
      rcases List.mem_cons.mp hd with rfl | hdt
      · rcases List.mem_cons.mp he with rfl | het
        · rfl
        · exfalso
          apply h.1
          rw [heq]
          exact List.mem_map.mpr ⟨e, het, rfl⟩
      · rcases List.mem_cons.mp he with rfl | het
        · exfalso
          apply h.1
          rw [← heq]
          exact List.mem_map.mpr ⟨d, hdt, rfl⟩
        · exact ih h.2 hdt het

theorem mem_drop_sorted_iff :
    ∀ (l : List (String × VibeS)),
      l.Pairwise (fun a b => b.2.value < a.2.value) →
      ∀ (K : ℕ) (e : String × VibeS),
        e ∈ l.drop K ↔
          e ∈ l ∧ K ≤ l.countP fun w => decide (e.2.value < w.2.value) := by
  intro l
  induction l with
  | nil => intro _ K e; simp
  | cons a t ih =>
      intro hs K e
      have hpair := List.pairwise_cons.mp hs
      cases K with
      | zero => simp
      | succ k =>
          rw [List.drop_succ_cons, ih hpair.2 k e]
          rw [List.countP_cons]
          constructor
          · rintro ⟨het, hcnt⟩
            have ha : e.2.value < a.2.value := hpair.1 e het
            refine ⟨List.mem_cons.mpr (Or.inr het), ?_⟩
            rw [if_pos (by simpa using ha)]
            omega
          · rintro ⟨hmem, hcnt⟩
            rcases List.mem_cons.mp hmem with rfl | het
            · exfalso
              rw [if_neg (by simp)] at hcnt
              have hz : (t.countP fun w => decide (e.2.value < w.2.value)) = 0 := by
                rw [List.countP_eq_zero]
                intro w hw
                simp only [decide_eq_true_eq]
                exact not_lt.mpr (le_of_lt (hpair.1 w hw))
              omega
            · have ha : e.2.value < a.2.value := hpair.1 e het
              rw [if_pos (by simpa using ha)] at hcnt
              exact ⟨het, by omega⟩

theorem countP_mem_append_right {α : Type} [DecidableEq α] (t d : List α)
    (hdisj : ∀ a ∈ t, a ∉ d) :
    ((t ++ d).countP fun e => decide (e ∈ d)) = d.length := by
  rw [List.countP_append]
  have h1 : (t.countP fun e => decide (e ∈ d)) = 0 := by
    rw [List.countP_eq_zero]
    intro a ha
    simpa using hdisj a ha
  have h2 : (d.countP fun e => decide (e ∈ d)) = d.length := by
    rw [List.countP_eq_length]
    intro a ha
    simpa using ha
  omega

theorem countP_mem_drop_of_nodup {α : Type} [DecidableEq α] (l : List α)
    (hnd : l.Nodup) (K : ℕ) :
    (l.countP fun e => decide (e ∈ l.drop K)) = l.length - K := by
  have hdisj : ∀ a ∈ l.take K, a ∉ l.drop K := fun a hat had =>
    (List.disjoint_take_drop hnd le_rfl) hat had
  calc (l.countP fun e => decide (e ∈ l.drop K))
      = ((l.take K ++ l.drop K).countP fun e => decide (e ∈ l.drop K)) := by
        rw [List.take_append_drop]
    _ = (l.drop K).length := countP_mem_append_right _ _ hdisj
    _ = l.length - K := List.length_drop _ _

/-- C2: for an Agent holding `N > connectivity` active, unmuted, open Vibes
of pairwise-distinct values, one `refreshVibes` (convergence) call closes
nothing and rewrites the collection so that a Vibe is muted exactly when at
least `connectivity` Vibes carry a strictly greater value — i.e. exactly the
`N − connectivity` lowest-valued Vibes end up muted, the top `connectivity`
stay unmuted, and every connection stays open. -/
theorem sprite_refreshVibes_convergence (s : SpriteS) (now : ℚ)
    (hact : ∀ e ∈ s.vibes, Vibe.isActive e.2 s.beat now = true)
    (hunmuted : ∀ e ∈ s.vibes, e.2.muted = false)
    (hopen : ∀ e ∈ s.vibes, e.2.wsOpen = true)
    (hdist : (s.vibes.map fun e => e.2.value).Nodup)
    (hnames : (s.vibes.map Prod.fst).Nodup)
    (hK : s.connectivity < s.vibes.length) :
    (Sprite.refreshVibes s now).vibes
        = (s.vibes.map fun e => (e.1, { e.2 with muted :=
            (decide (s.connectivity ≤ s.vibes.countP fun w =>
              decide (e.2.value < w.2.value))) }))
    ∧ ((Sprite.refreshVibes s now).vibes.filter fun e => e.2.muted).length
        = s.vibes.length - s.connectivity
    ∧ ∀ e ∈ (Sprite.refreshVibes s now).vibes, e.2.wsOpen = true := by
  have hclosed : (s.vibes.map fun e =>
      if Vibe.isActive e.2 s.beat now then e
      else (e.1, { e.2 with wsOpen := false })) = s.vibes := by
    have h1 : ∀ e ∈ s.vibes,
        (if Vibe.isActive e.2 s.beat now then e
         else (e.1, { e.2 with wsOpen := false })) = id e := by
      intro e he
      simp [hact e he]
    rw [List.map_congr_left h1, List.map_id]
  have hperm : List.Perm (List.insertionSort Sprite.byValueDesc s.vibes)
      s.vibes :=
    List.perm_insertionSort _ _
  have hsorted : List.Sorted Sprite.byValueDesc
      (List.insertionSort Sprite.byValueDesc s.vibes) :=
    List.sorted_insertionSort _ _
  have hstrict : (List.insertionSort Sprite.byValueDesc s.vibes).Pairwise
      fun a b => b.2.value < a.2.value := by
    have h2 : (List.insertionSort Sprite.byValueDesc s.vibes).Pairwise
        fun a b => a.2.value ≠ b.2.value := by
      have h3 : ((List.insertionSort Sprite.byValueDesc s.vibes).map
          fun e => e.2.value).Nodup :=
        ((hperm.map fun e => e.2.value).nodup_iff).mpr hdist
      simpa [List.Nodup, List.pairwise_map] using h3
    exact List.Pairwise.imp
      (fun h => lt_of_le_of_ne h.1 (Ne.symm h.2)) (hsorted.and h2)
  have hvnodup : s.vibes.Nodup := List.Nodup.of_map _ hdist
  have hsortednodup : (List.insertionSort Sprite.byValueDesc s.vibes).Nodup :=
    hperm.nodup_iff.mpr hvnodup
  have hkey : ∀ e ∈ s.vibes,
      ((((List.insertionSort Sprite.byValueDesc s.vibes).drop
          s.connectivity).map Prod.fst).contains e.1 = true ↔
        s.connectivity ≤ s.vibes.countP fun w =>
          decide (e.2.value < w.2.value)) := by
    intro e he
    have hcnt : ((List.insertionSort Sprite.byValueDesc s.vibes).countP
        fun w => decide (e.2.value < w.2.value))
        = s.vibes.countP fun w => decide (e.2.value < w.2.value) :=
      hperm.countP_eq _
    constructor
    · intro hc
      rw [List.contains_eq_any_beq, List.any_eq_true] at hc
      obtain ⟨x, hxdn, hbeq⟩ := hc
      have hex : e.1 = x := by simpa using hbeq
      obtain ⟨d, hddrop, hdx⟩ := List.mem_map.mp hxdn
      have hdmem := (mem_drop_sorted_iff _ hstrict s.connectivity d).mp hddrop
      have hdv : d ∈ s.vibes := hperm.mem_iff.mp hdmem.1
      have hde : d = e := nodup_keys_inj hnames hdv he (by rw [hdx, ← hex])
      rw [← hcnt, ← hde]
      exact hdmem.2
    · intro hr
      have hes : e ∈ List.insertionSort Sprite.byValueDesc s.vibes :=
        hperm.mem_iff.mpr he
      have hedrop : e ∈ (List.insertionSort Sprite.byValueDesc s.vibes).drop
          s.connectivity :=
        (mem_drop_sorted_iff _ hstrict s.connectivity e).mpr
          ⟨hes, by rw [hcnt]; exact hr⟩
      rw [List.contains_eq_any_beq, List.any_eq_true]
      exact ⟨e.1, List.mem_map.mpr ⟨e, hedrop, rfl⟩, by simp⟩
  have href : (Sprite.refreshVibes s now).vibes = s.vibes.map fun e =>
      if (((List.insertionSort Sprite.byValueDesc s.vibes).drop
          s.connectivity).map Prod.fst).contains e.1
      then (e.1, Vibe.mute e.2) else e := by
    simp only [Sprite.refreshVibes]
    rw [hclosed, if_pos hK]
  have hmapeq : (Sprite.refreshVibes s now).vibes
      = s.vibes.map fun e => (e.1, { e.2 with muted :=
          (decide (s.connectivity ≤ s.vibes.countP fun w =>
            decide (e.2.value < w.2.value))) }) := by
    rw [href]
    apply List.map_congr_left
    intro e he
    by_cases hc : (((List.insertionSort Sprite.byValueDesc s.vibes).drop
        s.connectivity).map Prod.fst).contains e.1
    · rw [if_pos hc]
      have hrk := (hkey e he).mp hc
      rw [decide_eq_true hrk]
      rfl
    · rw [if_neg hc]
      have hnot : ¬ (s.connectivity ≤ s.vibes.countP fun w =>
          decide (e.2.value < w.2.value)) :=
        fun h => hc ((hkey e he).mpr h)
      rw [decide_eq_false hnot]
      have hm := hunmuted e he
      obtain ⟨n, v⟩ := e
      simp only at hm
      cases v
      simp_all
  refine ⟨hmapeq, ?_, ?_⟩
  · rw [hmapeq, List.filter_map, List.length_map,
      ← List.countP_eq_length_filter]
    have hpf : ((fun e : String × VibeS => e.2.muted) ∘
        fun e : String × VibeS => (e.1, { e.2 with muted :=
          (decide (s.connectivity ≤ s.vibes.countP fun w =>
            decide (e.2.value < w.2.value))) }))
        = fun e : String × VibeS =>
            decide (s.connectivity ≤ s.vibes.countP fun w =>
              decide (e.2.value < w.2.value)) := rfl
    rw [hpf, ← hperm.countP_eq]
    have hfinal := countP_mem_drop_of_nodup
      (List.insertionSort Sprite.byValueDesc s.vibes) hsortednodup
      s.connectivity
    rw [hperm.length_eq] at hfinal
    refine Eq.trans ?_ hfinal
    apply List.countP_congr
    intro e he
    simp only [decide_eq_true_eq]
    rw [mem_drop_sorted_iff _ hstrict]
    constructor
    · intro h
      exact ⟨he, by rw [hperm.countP_eq]; exact h⟩
    · rintro ⟨_, h⟩
      rw [← hperm.countP_eq]
      exact h
  · intro f hf
    rw [hmapeq] at hf
    obtain ⟨e, he, rfl⟩ := List.mem_map.mp hf
    simpa using hopen e he

/-- Witness for C2: connectivity 2 with active unmuted Vibes of values 5, 3,
1 — after one refresh exactly one Vibe (the lowest) is muted. -/
theorem sprite_refreshVibes_convergence_witness :
    ((Sprite.refreshVibes
      { id := "alice:main", connectivity := 2, beat := 20000,
        vibes := [("a", ⟨((5 : ℚ) : WithBot ℚ), 0, false, true⟩),
                  ("b", ⟨((3 : ℚ) : WithBot ℚ), 0, false, true⟩),
                  ("c", ⟨((1 : ℚ) : WithBot ℚ), 0, false, true⟩)],
        rr := 0 } 0).vibes.filter fun e => e.2.muted).length = 1 := by
  have h := sprite_refreshVibes_convergence
    { id := "alice:main", connectivity := 2, beat := 20000,
      vibes := [("a", ⟨((5 : ℚ) : WithBot ℚ), 0, false, true⟩),
                ("b", ⟨((3 : ℚ) : WithBot ℚ), 0, false, true⟩),
                ("c", ⟨((1 : ℚ) : WithBot ℚ), 0, false, true⟩)],
      rr := 0 } 0
    (by intro e he; fin_cases he <;> simp [Vibe.isActive])
    (by intro e he; fin_cases he <;> rfl)
    (by intro e he; fin_cases he <;> rfl)
    (by norm_num) (by decide) (by decide)
  exact h.2.1
